import Mathlib

/-!
Verification development for the fortune-wheel backend.

Embedded components (shallow embedding of the Python source):
* `bot/api/auth.py` — `validate_init_data`: HMAC-SHA256 signature validation
  of Telegram WebApp init data.  SHA-256 and HMAC are embedded concretely
  (FIPS 180-4 / RFC 2104) because `validate_init_data` calls Python's
  `hashlib`/`hmac` with a specific key/message argument order that the
  claims are about.
* `bot/db/models.py` — the `Prize` and `Spin` tables (the `spins` table has
  a UNIQUE constraint on `tg_user_id`).
* `bot/api/routes.py` — the endpoints `spin`, `check_user`, `reset_results`,
  `delete_result`, `create_prize`, `update_prize`, modelled as pure
  functions over an explicit database state.

Machine integers are `Nat` with explicit `% 2^32` where the hash arithmetic
overflows.  Timestamp columns (`created_at`, `updated_at`) are omitted from
the record embeddings: no claim mentions them and they influence none of the
embedded control flow.
-/

set_option maxRecDepth 100000

namespace FortuneWheel

/-! ## Bytes and 32-bit words -/

/-- Truncate to a 32-bit word. -/
def wnd (n : Nat) : Nat := n % 4294967296

/-- Right rotation of a 32-bit word. -/
def rotr (n x : Nat) : Nat := wnd ((x >>> n) ||| (x <<< (32 - n)))

/-- UTF-8 encoding of a single code point (what Python's `str.encode()` does
per character). -/
def utf8Bytes (c : Nat) : List Nat :=
  if c < 128 then [c]
  else if c < 2048 then [192 ||| (c >>> 6), 128 ||| (c &&& 63)]
  else if c < 65536 then
    [224 ||| (c >>> 12), 128 ||| ((c >>> 6) &&& 63), 128 ||| (c &&& 63)]
  else
    [240 ||| (c >>> 18), 128 ||| ((c >>> 12) &&& 63),
     128 ||| ((c >>> 6) &&& 63), 128 ||| (c &&& 63)]

/-- `s.encode()` in Python: the UTF-8 bytes of a string. -/
def strBytes (s : String) : List Nat :=
  (s.data.map fun c => utf8Bytes c.toNat).flatten

/-! ## SHA-256 (FIPS 180-4) -/

/-- The eight working variables of the SHA-256 compression function. -/
structure Hash8 where
  a : Nat
  b : Nat
  c : Nat
  d : Nat
  e : Nat
  f : Nat
  g : Nat
  h : Nat
deriving DecidableEq, Repr

/-- SHA-256 initial hash value. -/
def sha256Init : Hash8 :=
  ⟨1779033703, 3144134277, 1013904242, 2773480762,
   1359893119, 2600822924, 528734635, 1541459225⟩

/-- SHA-256 round constants. -/
def sha256K : List Nat :=
  [1116352408, 1899447441, 3049323471, 3921009573,
   961987163, 1508970993, 2453635748, 2870763221,
   3624381080, 310598401, 607225278, 1426881987,
   1925078388, 2162078206, 2614888103, 3248222580,
   3835390401, 4022224774, 264347078, 604807628,
   770255983, 1249150122, 1555081692, 1996064986,
   2554220882, 2821834349, 2952996808, 3210313671,
   3336571891, 3584528711, 113926993, 338241895,
   666307205, 773529912, 1294757372, 1396182291,
   1695183700, 1986661051, 2177026350, 2456956037,
   2730485921, 2820302411, 3259730800, 3345764771,
   3516065817, 3600352804, 4094571909, 275423344,
   430227734, 506948616, 659060556, 883997877,
   958139571, 1322822218, 1537002063, 1747873779,
   1955562222, 2024104815, 2227730452, 2361852424,
   2428436474, 2756734187, 3204031479, 3329325298]

def smallSigma0 (x : Nat) : Nat := rotr 7 x ^^^ rotr 18 x ^^^ (x >>> 3)

def smallSigma1 (x : Nat) : Nat := rotr 17 x ^^^ rotr 19 x ^^^ (x >>> 10)

def bigSigma0 (x : Nat) : Nat := rotr 2 x ^^^ rotr 13 x ^^^ rotr 22 x

def bigSigma1 (x : Nat) : Nat := rotr 6 x ^^^ rotr 11 x ^^^ rotr 25 x

def chFn (x y z : Nat) : Nat := (x &&& y) ^^^ ((x ^^^ 4294967295) &&& z)

def majFn (x y z : Nat) : Nat := (x &&& y) ^^^ (x &&& z) ^^^ (y &&& z)

/-- Big-endian 64-bit length field of the padding. -/
def lenBytes64 (n : Nat) : List Nat :=
  [n >>> 56 % 256, n >>> 48 % 256, n >>> 40 % 256, n >>> 32 % 256,
   n >>> 24 % 256, n >>> 16 % 256, n >>> 8 % 256, n % 256]

/-- SHA-256 message padding: append 0x80, zero bytes to 56 mod 64, then the
bit length as a 64-bit big-endian integer. -/
def padMsg (msg : List Nat) : List Nat :=
  msg ++ [128] ++ List.replicate ((119 - msg.length % 64) % 64) 0
      ++ lenBytes64 (8 * msg.length)

/-- Group bytes into 4-byte big-endian words. -/
def bytesToWords : List Nat → List Nat
  | b0 :: b1 :: b2 :: b3 :: rest =>
      (((b0 * 256 + b1) * 256 + b2) * 256 + b3) :: bytesToWords rest
  | _ => []

/-- Fuel-indexed chunking into 64-byte blocks (structural recursion so the
kernel can evaluate it). -/
def chunk64 : Nat → List Nat → List (List Nat)
  | _, [] => []
  | 0, _ => []
  | n + 1, l => l.take 64 :: chunk64 n (l.drop 64)

def toBlocks (l : List Nat) : List (List Nat) := chunk64 l.length l

/-- Extend the 16 words of a block to the 64-word message schedule. -/
def buildSchedule (w16 : List Nat) : List Nat :=
  (List.range 48).foldl
    (fun w _ =>
      let n := w.length
      w ++ [wnd (smallSigma1 (w.getD (n - 2) 0) + w.getD (n - 7) 0 +
                 smallSigma0 (w.getD (n - 15) 0) + w.getD (n - 16) 0)])
    w16

/-- One SHA-256 round. -/
def sha256Round (st : Hash8) (kw : Nat × Nat) : Hash8 :=
  let t1 := wnd (st.h + bigSigma1 st.e + chFn st.e st.f st.g + kw.1 + kw.2)
  let t2 := wnd (bigSigma0 st.a + majFn st.a st.b st.c)
  ⟨wnd (t1 + t2), st.a, st.b, st.c, wnd (st.d + t1), st.e, st.f, st.g⟩

/-- Compress one 64-byte block into the running hash value. -/
def compressBlock (H : Hash8) (block : List Nat) : Hash8 :=
  let w := buildSchedule (bytesToWords block)
  let s := (sha256K.zip w).foldl sha256Round H
  ⟨wnd (H.a + s.a), wnd (H.b + s.b), wnd (H.c + s.c), wnd (H.d + s.d),
   wnd (H.e + s.e), wnd (H.f + s.f), wnd (H.g + s.g), wnd (H.h + s.h)⟩

/-- Big-endian bytes of a 32-bit word. -/
def wordBytes (w : Nat) : List Nat :=
  [w >>> 24 % 256, w >>> 16 % 256, w >>> 8 % 256, w % 256]

/-- Serialize the final hash value to 32 bytes. -/
def digestBytes (st : Hash8) : List Nat :=
  wordBytes st.a ++ wordBytes st.b ++ wordBytes st.c ++ wordBytes st.d ++
  wordBytes st.e ++ wordBytes st.f ++ wordBytes st.g ++ wordBytes st.h

/-- SHA-256 of a byte string. -/
def sha256 (msg : List Nat) : List Nat :=
  digestBytes ((toBlocks (padMsg msg)).foldl compressBlock sha256Init)

/-! ## HMAC-SHA256 (RFC 2104), the construction behind Python's
`hmac.new(key, msg, hashlib.sha256)` — first argument the key, second the
message. -/

def hmacSHA256 (key msg : List Nat) : List Nat :=
  let k0 := if 64 < key.length then sha256 key else key
  let kp := k0 ++ List.replicate (64 - k0.length) 0
  let ipad := kp.map (· ^^^ 54)
  let opad := kp.map (· ^^^ 92)
  sha256 (opad ++ sha256 (ipad ++ msg))

/-- Lowercase hex digit. -/
def hexDigit (n : Nat) : Char :=
  Char.ofNat (if n < 10 then 48 + n else 87 + n)

/-- `hexdigest()`: lowercase hex encoding of a byte string. -/
def hexEncode (bytes : List Nat) : String :=
  String.mk ((bytes.map fun b => [hexDigit (b / 16 % 16), hexDigit (b % 16)]).flatten)

/-! Sanity checks of the hash embedding against published test vectors
(FIPS 180-4 examples and RFC 4231 test case 2). -/

theorem sha256_fips_empty_vector :
    hexEncode (sha256 []) =
      "e3b0c44298fc1c149afbf4c8996fb92427ae41e4649b934ca495991b7852b855" := by
  decide

theorem sha256_fips_abc_vector :
    hexEncode (sha256 (strBytes "abc")) =
      "ba7816bf8f01cfea414140de5dae2223b00361a396177a9cb410ff61f20015ad" := by
  decide

theorem hmac_rfc4231_tc2_vector :
    hexEncode (hmacSHA256 (strBytes "Jefe") (strBytes "what do ya want for nothing?")) =
      "5bdcc146bf60754e6a042426089575c75a003f089d2739839dec58b964ec3843" := by
  decide

/-! ## `validate_init_data` (bot/api/auth.py)

The function receives the raw init-data string already split by
`urllib.parse.parse_qs` into key/value pairs and collapsed to a dict taking
the first occurrence of each key (`{k: v[0] for k, v in parsed.items()}`).
We embed it from that decoded key/value level: the payload is an association
list of decoded keys and values, and `toDict` models the collapse to a
first-occurrence dict.  JSON parsing of the `user` field (`json.loads`) and
the percent-decoding applied to it (`unquote`) are passed in as function
parameters: no claim depends on their internals. -/

/-- The Telegram principal parsed from the `user` JSON field. -/
structure TgUser where
  id : Int
  username : Option String
  first_name : Option String
  last_name : Option String
deriving DecidableEq, Repr

/-- The failure kinds of `validate_init_data` (each a distinct `ValueError`
message in the source).  `malformedAuthDate` models the `ValueError` that
Python's `int()` raises on a non-numeric `auth_date`. -/
inductive AuthError where
  | missingSignature
  | expiredPayload
  | invalidSignature
  | malformedUserData
  | malformedAuthDate
deriving DecidableEq, Repr

instance {ε α : Type} [DecidableEq ε] [DecidableEq α] : DecidableEq (Except ε α) := fun x y =>
  match x, y with
  | .error a, .error b =>
    if h : a = b then isTrue (by rw [h])
    else isFalse fun hc => h (Except.error.injEq .. ▸ hc)
  | .error _, .ok _ => isFalse fun hc => Except.noConfusion hc
  | .ok _, .error _ => isFalse fun hc => Except.noConfusion hc
  | .ok a, .ok b =>
    if h : a = b then isTrue (by rw [h])
    else isFalse fun hc => h (Except.ok.injEq .. ▸ hc)

/-- First value bound to a key in an association list (dict lookup after the
first-occurrence collapse). -/
def lookupFirst (k : String) (d : List (String × String)) : Option String :=
  (d.find? fun kv => kv.1 = k).map (·.2)

/-- `dict.pop(k)`: drop every binding of a key. -/
def removeKey (k : String) (d : List (String × String)) : List (String × String) :=
  d.filter fun kv => kv.1 ≠ k

/-- `{k: v[0] for k, v in parsed.items()}`: collapse to one binding per key,
keeping the first value. -/
def toDict (d : List (String × String)) : List (String × String) :=
  d.foldl (fun acc kv => if (acc.find? fun e => e.1 = kv.1).isSome then acc else acc ++ [kv]) []

/-- Code-point lexicographic order on strings (Python `<=` on `str`; on the
UTF-8 byte level this is the byte-wise order, since UTF-8 preserves
code-point order). -/
def strLe (a b : String) : Bool :=
  let rec go : List Char → List Char → Bool
    | [], _ => true
    | _ :: _, [] => false
    | x :: xs, y :: ys =>
      if x.toNat < y.toNat then true
      else if y.toNat < x.toNat then false
      else go xs ys
  go a.data b.data

/-- Stable insertion sort of the key/value pairs by key (`sorted(data.items())`
with unique keys). -/
def insertPair (kv : String × String) : List (String × String) → List (String × String)
  | [] => [kv]
  | e :: rest => if strLe kv.1 e.1 then kv :: e :: rest else e :: insertPair kv rest

def sortPairs : List (String × String) → List (String × String)
  | [] => []
  | kv :: rest => insertPair kv (sortPairs rest)

/-- The canonical data-check string: sorted `key=value` lines joined by a
single newline. -/
def dataCheckString (d : List (String × String)) : String :=
  String.intercalate "\n" ((sortPairs d).map fun kv => kv.1 ++ "=" ++ kv.2)

/-- Python `int(s)` on a decimal literal: optional surrounding whitespace,
optional sign, then at least one ASCII digit.  (Underscore separators and
non-ASCII digits, which Python also accepts, are not modelled; no claim
involves them.) -/
def parseDigits : List Char → Option Nat → Option Nat
  | [], acc => acc
  | c :: rest, acc =>
    if 48 ≤ c.toNat ∧ c.toNat ≤ 57 then
      parseDigits rest (some ((acc.getD 0) * 10 + (c.toNat - 48)))
    else none

/-- ASCII whitespace stripped by Python's `int()`. -/
def isPySpace (c : Char) : Bool :=
  c.toNat = 32 ∨ c.toNat = 9 ∨ c.toNat = 10 ∨ c.toNat = 13 ∨ c.toNat = 11 ∨ c.toNat = 12

def trimChars (l : List Char) : List Char :=
  ((l.dropWhile isPySpace).reverse.dropWhile isPySpace).reverse

def pyInt (s : String) : Option Int :=
  match trimChars s.data with
  | '-' :: rest => (parseDigits rest none).map fun n => -(n : Int)
  | '+' :: rest => (parseDigits rest none).map fun n => (n : Int)
  | l => (parseDigits l none).map fun n => (n : Int)

/-- Line 42 of auth.py:
`secret_key = hmac.new(b"WebAppData", bot_token.encode(), hashlib.sha256).digest()`
— in Python's `hmac.new` the FIRST argument is the HMAC key, the second the
message, so the literal `"WebAppData"` is the key and the token the message. -/
def secretKey (botToken : String) : List Nat :=
  hmacSHA256 (strBytes "WebAppData") (strBytes botToken)

/-- Modelled from the spec: the signing-key derivation as §4.1 words it —
"HMAC-SHA256 over the literal byte string `\"WebAppData\"` using the shared
secret token as the HMAC key", i.e. the token as key and `"WebAppData"` as
message.  Kept for comparison with `secretKey`, the derivation the source
performs. -/
def specSigningKey (botToken : String) : List Nat :=
  hmacSHA256 (strBytes botToken) (strBytes "WebAppData")

/-- Lines 43–45: the expected signature, hex-encoded. -/
def calculatedHash (botToken : String) (checkStr : String) : String :=
  hexEncode (hmacSHA256 (secretKey botToken) (strBytes checkStr))

/-- The successful result: the field mapping with `hash` removed, plus the
parsed `user` object when the `user` field is present. -/
structure ValidatedData where
  fields : List (String × String)
  user : Option TgUser
deriving DecidableEq, Repr

/-- Lines 32–35: `auth_date = data.get("auth_date")`;
`if auth_date and abs(time.time() - int(auth_date)) > 3600: raise`.
The empty string is falsy, so the check is skipped for it just as for an
absent key. -/
def freshnessCheck (now : Int) (rest : List (String × String)) : Except AuthError Unit :=
  match lookupFirst "auth_date" rest with
  | none => .ok ()
  | some a =>
    if a = "" then .ok ()
    else match pyInt a with
      | none => .error .malformedAuthDate
      | some t => if 3600 < (now - t).natAbs then .error .expiredPayload else .ok ()

/-- Lines 50–53: parse the `user` field as JSON when present and truthy. -/
def parseUserField (parseUser : String → Option TgUser)
    (rest : List (String × String)) : Except AuthError ValidatedData :=
  match lookupFirst "user" rest with
  | none => .ok ⟨rest, none⟩
  | some u =>
    if u = "" then .ok ⟨rest, none⟩        -- `if user_raw:` — falsy: no parse
    else match parseUser u with
      | none => .error .malformedUserData
      | some tu => .ok ⟨rest, some tu⟩

/-- `validate_init_data` (auth.py lines 18–55) over the decoded pair list.
`parseUser` models `json.loads ∘ unquote` on the `user` value (`none` for a
parse failure), `now` the wall clock `time.time()` in whole seconds. -/
def validateInitData (parseUser : String → Option TgUser) (now : Int)
    (botToken : String) (d : List (String × String)) : Except AuthError ValidatedData :=
  match lookupFirst "hash" (toDict d) with
  | none => .error .missingSignature
  | some receivedHash =>
    -- `if not received_hash:` — the empty string is falsy like `None`
    if receivedHash = "" then .error .missingSignature
    else
      match freshnessCheck now (removeKey "hash" (toDict d)) with
      | .error e => .error e
      | .ok () =>
        if calculatedHash botToken (dataCheckString (removeKey "hash" (toDict d)))
            = receivedHash then
          parseUserField parseUser (removeKey "hash" (toDict d))
        else .error .invalidSignature

/-! ## Database records (bot/db/models.py) -/

/-- Row of the `prizes` table. -/
structure Prize where
  id : Nat
  text : String
  icon : String
  color : String
  position : Nat
  is_active : Bool
deriving DecidableEq, Repr

/-- Row of the `spins` table.  `tg_user_id` carries a UNIQUE constraint
(models.py line 36): the insert in the `spin` endpoint fails with
`IntegrityError` when a row with the same `tg_user_id` already exists. -/
structure SpinRow where
  id : Nat
  tg_user_id : Int
  tg_username : Option String
  tg_first_name : Option String
  tg_last_name : Option String
  prize_id : Nat
  prize_text : String
deriving DecidableEq, Repr

/-- The persistent state the embedded endpoints act on: the two tables plus
the autoincrement counters for their primary keys. -/
structure DBState where
  prizes : List Prize
  spins : List SpinRow
  nextPrizeId : Nat
  nextSpinId : Nat
deriving DecidableEq, Repr

/-! ## Endpoint result shapes (Pydantic schemas in routes.py) -/

/-- `SpinOut`. -/
structure SpinOut where
  prize_id : Nat
  prize_text : String
  prize_icon : String
  prize_color : String
deriving DecidableEq, Repr

/-- `CheckOut`. -/
structure CheckOut where
  has_played : Bool
  prize : Option SpinOut
deriving DecidableEq, Repr

/-- Outcome of the `spin` endpoint: success, HTTP 503 («Нет доступных
призов»), or HTTP 409 («Вы уже испытали удачу!»). -/
inductive SpinResult where
  | ok (out : SpinOut)
  | noPrizes
  | alreadyPlayed
deriving DecidableEq, Repr

/-! ## Endpoints (bot/api/routes.py) -/

/-- Stable insertion sort of prizes by `position` (`ORDER BY position`). -/
def insertPrize (p : Prize) : List Prize → List Prize
  | [] => [p]
  | q :: rest => if p.position ≤ q.position then p :: q :: rest else q :: insertPrize p rest

def sortByPosition : List Prize → List Prize
  | [] => []
  | p :: rest => insertPrize p (sortByPosition rest)

/-- `SELECT * FROM prizes WHERE is_active ORDER BY position`. -/
def activePrizes (s : DBState) : List Prize :=
  sortByPosition (s.prizes.filter (·.is_active))

/-- `spin` (routes.py lines 162–202).  `k` stands for the random draw of
`secrets.choice(prizes)`: the chosen prize is the `k % |prizes|`-th of the
active list, so every active prize is reachable.  The uniqueness check
models the UNIQUE constraint firing at `session.commit()`: on conflict the
session is rolled back (state returned unchanged) and 409 is raised. -/
def spinEndpoint (u : TgUser) (k : Nat) (s : DBState) : SpinResult × DBState :=
  match activePrizes s with
  | [] => (.noPrizes, s)
  | p0 :: _ =>
    let prizes := activePrizes s
    let prize := prizes.getD (k % prizes.length) p0
    let row : SpinRow :=
      { id := s.nextSpinId
        tg_user_id := u.id
        tg_username := u.username
        tg_first_name := u.first_name
        tg_last_name := u.last_name
        prize_id := prize.id
        prize_text := prize.text }
    if s.spins.any (·.tg_user_id = u.id) then
      (.alreadyPlayed, s)
    else
      (.ok ⟨prize.id, prize.text, prize.icon, prize.color⟩,
       { s with spins := s.spins ++ [row], nextSpinId := s.nextSpinId + 1 })

/-- `check_user` (routes.py lines 205–227).  `prize_id`/`prize_text` come
from the stored spin row; `prize_icon`/`prize_color` are read back from the
live `prizes` table (`session.get(Prize, spin_record.prize_id)`), with the
literal fallbacks of lines 224–225 when the prize row no longer exists. -/
def checkEndpoint (tg_user_id : Int) (s : DBState) : CheckOut :=
  match s.spins.find? (·.tg_user_id = tg_user_id) with
  | none => ⟨false, none⟩
  | some r =>
    match s.prizes.find? (·.id = r.prize_id) with
    | some p => ⟨true, some ⟨r.prize_id, r.prize_text, p.icon, p.color⟩⟩
    | none => ⟨true, some ⟨r.prize_id, r.prize_text, "🎁", "#ffd700"⟩⟩

/-- `reset_results` (routes.py lines 278–290): `DELETE FROM spins`. -/
def resetEndpoint (s : DBState) : DBState :=
  { s with spins := [] }

/-- `delete_result` (routes.py lines 256–275): delete one spin row by its
primary key; 404 (`false`) when it does not exist. -/
def deleteResultEndpoint (spin_id : Nat) (s : DBState) : Bool × DBState :=
  if s.spins.any (·.id = spin_id) then
    (true, { s with spins := s.spins.filter (·.id ≠ spin_id) })
  else (false, s)

/-- Body of `PrizeCreate`. -/
structure PrizeCreate where
  text : String
  icon : String
  color : String
  position : Nat
deriving DecidableEq, Repr

/-- `create_prize` (routes.py lines 402–438): refuse (`false`) when 12 or
more prizes are active, otherwise insert a new active prize. -/
def createPrizeEndpoint (d : PrizeCreate) (s : DBState) : Bool × DBState :=
  if 12 ≤ (s.prizes.filter (·.is_active)).length then (false, s)
  else
    (true,
     { s with
        prizes := s.prizes ++
          [{ id := s.nextPrizeId, text := d.text, icon := d.icon,
             color := d.color, position := d.position, is_active := true }]
        nextPrizeId := s.nextPrizeId + 1 })

/-- Body of `PrizeUpdate`: each field optional (`exclude_unset`). -/
structure PrizeUpdate where
  text : Option String
  icon : Option String
  color : Option String
  position : Option Nat
  is_active : Option Bool
deriving DecidableEq, Repr

/-- `setattr(prize, field, value)` for each set field. -/
def applyPrizeUpdate (u : PrizeUpdate) (p : Prize) : Prize :=
  { p with
      text := u.text.getD p.text
      icon := u.icon.getD p.icon
      color := u.color.getD p.color
      position := u.position.getD p.position
      is_active := u.is_active.getD p.is_active }

/-- `update_prize` (routes.py lines 458–484): 404 (`false`) when the id is
unknown, otherwise update the fields that were set. -/
def updatePrizeEndpoint (prize_id : Nat) (u : PrizeUpdate) (s : DBState) : Bool × DBState :=
  if s.prizes.any (·.id = prize_id) then
    (true, { s with prizes := s.prizes.map fun p => if p.id = prize_id then applyPrizeUpdate u p else p })
  else (false, s)

/-! ## Operation alphabet for reachability arguments -/

/-- One request against the embedded endpoints. -/
inductive Op where
  | spinOp (u : TgUser) (k : Nat)
  | checkOp (uid : Int)
  | resetOp
  | deleteResultOp (spin_id : Nat)
  | createPrizeOp (d : PrizeCreate)
  | updatePrizeOp (prize_id : Nat) (u : PrizeUpdate)
deriving DecidableEq

/-- State reached after one operation (`check_user` is read-only). -/
def applyOp (op : Op) (s : DBState) : DBState :=
  match op with
  | .spinOp u k => (spinEndpoint u k s).2
  | .checkOp _ => s
  | .resetOp => resetEndpoint s
  | .deleteResultOp i => (deleteResultEndpoint i s).2
  | .createPrizeOp d => (createPrizeEndpoint d s).2
  | .updatePrizeOp i u => (updatePrizeEndpoint i u s).2

/-- State reached after a sequence of operations. -/
def applyOps (ops : List Op) (s : DBState) : DBState :=
  ops.foldl (fun st op => applyOp op st) s

/-- The storage invariant of the `spins` table: at most one row per
`tg_user_id` (the UNIQUE constraint of models.py line 36). -/
def spinKeysNodup (s : DBState) : Prop :=
  (s.spins.map (·.tg_user_id)).Nodup

instance (s : DBState) : Decidable (spinKeysNodup s) := by
  unfold spinKeysNodup; infer_instance

/-! ## Helper lemmas about the endpoints -/

theorem find?_append_of_some {α} (p : α → Bool) {l₁ : List α} (l₂ : List α) {a : α}
    (h : l₁.find? p = some a) : (l₁ ++ l₂).find? p = some a := by
  simp [List.find?_append, h]

theorem find?_append_of_none {α} (p : α → Bool) {l₁ : List α} (l₂ : List α)
    (h : l₁.find? p = none) : (l₁ ++ l₂).find? p = l₂.find? p := by
  simp [List.find?_append, h]

theorem find?_filter_of_imp {α} (p q : α → Bool) (l : List α)
    (h : ∀ x, p x = true → q x = true) :
    (l.filter q).find? p = l.find? p := by
  induction l with
  | nil => simp
  | cons x xs ih =>
    by_cases hx : p x
    · have hq : q x := h x hx
      simp [List.filter_cons, hq, List.find?_cons_of_pos _ hx, ih]
    · by_cases hq : q x
      · simp [List.filter_cons, hq, List.find?_cons_of_neg _ hx, ih]
      · simp [List.filter_cons, hq, List.find?_cons_of_neg _ hx, ih]

/-- The `spin` endpoint never touches the `prizes` table. -/
theorem spinEndpoint_prizes (u : TgUser) (k : Nat) (s : DBState) :
    (spinEndpoint u k s).2.prizes = s.prizes := by
  unfold spinEndpoint
  split
  · rfl
  · dsimp only
    split <;> rfl

/-- With no active prize the endpoint answers 503 and the state is
unchanged. -/
theorem spinEndpoint_of_empty (u : TgUser) (k : Nat) (s : DBState)
    (hempty : activePrizes s = []) :
    spinEndpoint u k s = (.noPrizes, s) := by
  unfold spinEndpoint
  rw [hempty]

/-- An identity that already has a spin row is rejected with 409 and the
state is returned unchanged (the rollback of routes.py line 194). -/
theorem spinEndpoint_of_played (u : TgUser) (k : Nat) (s : DBState)
    (h1 : s.spins.any (·.tg_user_id = u.id) = true)
    (h2 : activePrizes s ≠ []) :
    spinEndpoint u k s = (.alreadyPlayed, s) := by
  unfold spinEndpoint
  split
  · next heq => exact absurd heq h2
  · dsimp only
    rw [if_pos h1]

/-- An identity with no spin row and a nonempty active prize set gets a
prize: the returned fields are those of the chosen prize and the new state
appends exactly one row carrying the identity and the prize snapshot. -/
theorem spinEndpoint_of_fresh (u : TgUser) (k : Nat) (s : DBState)
    (h1 : s.spins.any (·.tg_user_id = u.id) = false)
    (h2 : activePrizes s ≠ []) :
    ∃ out : SpinOut,
      spinEndpoint u k s =
        (.ok out,
         { s with
            spins := s.spins ++
              [⟨s.nextSpinId, u.id, u.username, u.first_name, u.last_name,
                out.prize_id, out.prize_text⟩]
            nextSpinId := s.nextSpinId + 1 }) := by
  unfold spinEndpoint
  split
  · next heq => exact absurd heq h2
  · dsimp only
    rw [if_neg (by simp [h1])]
    exact ⟨_, rfl⟩

/-- Inversion: a successful spin appends exactly the row snapshotting the
returned prize id and text for the calling identity. -/
theorem spinEndpoint_ok_inv (u : TgUser) (k : Nat) (s : DBState)
    (out : SpinOut) (s' : DBState)
    (h : spinEndpoint u k s = (.ok out, s')) :
    s.spins.any (·.tg_user_id = u.id) = false ∧
    s' = { s with
            spins := s.spins ++
              [⟨s.nextSpinId, u.id, u.username, u.first_name, u.last_name,
                out.prize_id, out.prize_text⟩]
            nextSpinId := s.nextSpinId + 1 } := by
  unfold spinEndpoint at h
  split at h
  · simp at h
  · dsimp only at h
    split at h
    · simp at h
    · next hcond =>
      rw [Bool.not_eq_true] at hcond
      refine ⟨hcond, ?_⟩
      obtain ⟨hout, hst⟩ := Prod.mk.injEq .. ▸ h
      cases hout
      exact hst.symm

/-- Every embedded operation preserves the uniqueness of `tg_user_id` over
the `spins` table. -/
theorem applyOp_spinKeysNodup (op : Op) (s : DBState) (h : spinKeysNodup s) :
    spinKeysNodup (applyOp op s) := by
  cases op with
  | spinOp u k =>
    show spinKeysNodup (spinEndpoint u k s).2
    by_cases hempty : activePrizes s = []
    · unfold spinEndpoint
      rw [hempty]
      exact h
    · by_cases hplayed : s.spins.any (·.tg_user_id = u.id)
      · rw [spinEndpoint_of_played u k s hplayed hempty]
        exact h
      · rw [Bool.not_eq_true] at hplayed
        obtain ⟨out, heq⟩ := spinEndpoint_of_fresh u k s hplayed hempty
        rw [heq]
        have hnot : ∀ r ∈ s.spins, ¬(r.tg_user_id = u.id) := by
          simpa using hplayed
        unfold spinKeysNodup at h ⊢
        simp only [List.map_append, List.map_cons, List.map_nil]
        rw [List.nodup_append]
        refine ⟨h, List.nodup_singleton _, ?_⟩
        intro x hx hx2
        simp only [List.mem_singleton] at hx2
        obtain ⟨r, hr, hrx⟩ := List.mem_map.mp hx
        exact hnot r hr (by rw [hrx, hx2])
  | checkOp uid => exact h
  | resetOp =>
    show spinKeysNodup (resetEndpoint s)
    simp [spinKeysNodup, resetEndpoint]
  | deleteResultOp i =>
    show spinKeysNodup (deleteResultEndpoint i s).2
    unfold deleteResultEndpoint
    split
    · have hsub : ((s.spins.filter (·.id ≠ i)).map (·.tg_user_id)).Sublist
          (s.spins.map (·.tg_user_id)) :=
        (List.filter_sublist _).map _
      exact h.sublist hsub
    · exact h
  | createPrizeOp d =>
    show spinKeysNodup (createPrizeEndpoint d s).2
    unfold createPrizeEndpoint
    split
    · exact h
    · exact h
  | updatePrizeOp i u =>
    show spinKeysNodup (updatePrizeEndpoint i u s).2
    unfold updatePrizeEndpoint
    split
    · exact h
    · exact h

/-- C1: for every reachable state of the system (under any sequence of the
embedded operations, which include Spin, CheckStatus and DeleteAllSpins),
there is at most one spin row per identity — `spinKeysNodup`, the image of
the storage-level UNIQUE constraint on `spins.tg_user_id` — and every
operation preserves this invariant. -/
theorem spin_uniqueness_invariant_preserved (ops : List Op) (s : DBState)
    (h : spinKeysNodup s) : spinKeysNodup (applyOps ops s) := by
  induction ops generalizing s with
  | nil => exact h
  | cons op rest ih =>
    have hstep : applyOps (op :: rest) s = applyOps rest (applyOp op s) := rfl
    rw [hstep]
    exact ih _ (applyOp_spinKeysNodup op s h)

theorem spin_uniqueness_invariant_preserved_witness :
    spinKeysNodup ⟨[⟨1, "A", "X", "#111111", 1, true⟩], [], 2, 1⟩ ∧
    spinKeysNodup (applyOps
      [.spinOp ⟨7, none, none, none⟩ 0, .checkOp 7,
       .spinOp ⟨7, none, none, none⟩ 1, .spinOp ⟨9, none, none, none⟩ 0,
       .resetOp, .spinOp ⟨7, none, none, none⟩ 0]
      ⟨[⟨1, "A", "X", "#111111", 1, true⟩], [], 2, 1⟩) :=
  ⟨by decide,
   spin_uniqueness_invariant_preserved
     [.spinOp ⟨7, none, none, none⟩ 0, .checkOp 7,
      .spinOp ⟨7, none, none, none⟩ 1, .spinOp ⟨9, none, none, none⟩ 0,
      .resetOp, .spinOp ⟨7, none, none, none⟩ 0]
     ⟨[⟨1, "A", "X", "#111111", 1, true⟩], [], 2, 1⟩ (by decide)⟩

/-- C6: a Spin call whose insert is rejected by the identity-uniqueness
constraint fails with AlreadyPlayed and leaves the state unchanged: the
attempted row is discarded, no different prize is retried, and no partial
spin row is observable. -/
theorem spin_conflict_already_played (s : DBState) (u : TgUser) (k : Nat)
    (hprizes : activePrizes s ≠ [])
    (hplayed : s.spins.any (·.tg_user_id = u.id) = true) :
    spinEndpoint u k s = (.alreadyPlayed, s) :=
  spinEndpoint_of_played u k s hplayed hprizes

theorem spin_conflict_already_played_witness :
    activePrizes ⟨[⟨1, "A", "X", "#111111", 1, true⟩],
        [⟨1, 7, none, none, none, 1, "A"⟩], 2, 2⟩ ≠ [] ∧
    ([⟨1, 7, none, none, none, 1, "A"⟩] : List SpinRow).any (·.tg_user_id = (7 : Int)) = true ∧
    spinEndpoint ⟨7, none, none, none⟩ 5
        ⟨[⟨1, "A", "X", "#111111", 1, true⟩], [⟨1, 7, none, none, none, 1, "A"⟩], 2, 2⟩ =
      (.alreadyPlayed,
       ⟨[⟨1, "A", "X", "#111111", 1, true⟩], [⟨1, 7, none, none, none, 1, "A"⟩], 2, 2⟩) :=
  ⟨by decide, by decide,
   spin_conflict_already_played
     ⟨[⟨1, "A", "X", "#111111", 1, true⟩], [⟨1, 7, none, none, none, 1, "A"⟩], 2, 2⟩
     ⟨7, none, none, none⟩ 5 (by decide) (by decide)⟩

/-- C8: a Spin call made when the set of active prizes is empty fails with
NoPrizesAvailable and the state is unchanged (no spin row is created). -/
theorem spin_no_prizes (s : DBState) (u : TgUser) (k : Nat)
    (hempty : activePrizes s = []) :
    spinEndpoint u k s = (.noPrizes, s) :=
  spinEndpoint_of_empty u k s hempty

theorem spin_no_prizes_witness :
    activePrizes ⟨[⟨1, "A", "X", "#111111", 1, false⟩], [], 2, 1⟩ = [] ∧
    spinEndpoint ⟨7, none, none, none⟩ 3 ⟨[⟨1, "A", "X", "#111111", 1, false⟩], [], 2, 1⟩ =
      (.noPrizes, ⟨[⟨1, "A", "X", "#111111", 1, false⟩], [], 2, 1⟩) :=
  ⟨by decide,
   spin_no_prizes ⟨[⟨1, "A", "X", "#111111", 1, false⟩], [], 2, 1⟩
     ⟨7, none, none, none⟩ 3 (by decide)⟩

/-- C9: after DeleteAllSpins (`reset_results`), every identity's CheckStatus
returns "not played", and a subsequent Spin for that identity succeeds
provided at least one active prize exists. -/
theorem reset_then_check_and_spin (s : DBState) (u : TgUser) (k : Nat)
    (hprizes : activePrizes s ≠ []) :
    checkEndpoint u.id (resetEndpoint s) = ⟨false, none⟩ ∧
    ∃ out s', spinEndpoint u k (resetEndpoint s) = (.ok out, s') := by
  have hactive : activePrizes (resetEndpoint s) = activePrizes s := rfl
  constructor
  · unfold checkEndpoint resetEndpoint
    rfl
  · have hfresh : (resetEndpoint s).spins.any (·.tg_user_id = u.id) = false := rfl
    obtain ⟨out, heq⟩ := spinEndpoint_of_fresh u k (resetEndpoint s) hfresh
      (by rw [hactive]; exact hprizes)
    exact ⟨out, _, heq⟩

theorem reset_then_check_and_spin_witness :
    activePrizes ⟨[⟨1, "A", "X", "#111111", 1, true⟩],
        [⟨1, 7, none, none, none, 1, "A"⟩], 2, 2⟩ ≠ [] ∧
    (checkEndpoint (7 : Int) (resetEndpoint
        ⟨[⟨1, "A", "X", "#111111", 1, true⟩], [⟨1, 7, none, none, none, 1, "A"⟩], 2, 2⟩) =
      ⟨false, none⟩ ∧
     ∃ out s', spinEndpoint ⟨7, none, none, none⟩ 0 (resetEndpoint
        ⟨[⟨1, "A", "X", "#111111", 1, true⟩], [⟨1, 7, none, none, none, 1, "A"⟩], 2, 2⟩) =
        (.ok out, s')) :=
  ⟨by decide,
   reset_then_check_and_spin
     ⟨[⟨1, "A", "X", "#111111", 1, true⟩], [⟨1, 7, none, none, none, 1, "A"⟩], 2, 2⟩
     ⟨7, none, none, none⟩ 0 (by decide)⟩

/-! ## Concurrent spins

Each concurrent `spin` request is a sequence «read active prizes → pick a
random prize → atomically insert».  The only state-changing step is the
insert (the commit), which the storage layer serializes, and no in-flight
spin modifies the `prizes` table — so any interleaving of N concurrent calls
is equivalent to executing the endpoint N times in the serialization order
of their commits.  `runSpins` is that serialization; the random draws of the
callers are the list `ks`. -/

def runSpins (u : TgUser) (ks : List Nat) (s : DBState) : List SpinResult × DBState :=
  match ks with
  | [] => ([], s)
  | k :: rest =>
    let r := spinEndpoint u k s
    let rs := runSpins u rest r.2
    (r.1 :: rs.1, rs.2)

def isOkResult : SpinResult → Bool
  | .ok _ => true
  | _ => false

/-- Once the identity has a spin row, every further serialized call fails
with AlreadyPlayed and the state never changes. -/
theorem runSpins_of_played (u : TgUser) (ks : List Nat) (s : DBState)
    (hplayed : s.spins.any (·.tg_user_id = u.id) = true)
    (hprizes : activePrizes s ≠ []) :
    runSpins u ks s = (ks.map fun _ => .alreadyPlayed, s) := by
  induction ks with
  | nil => rfl
  | cons k rest ih =>
    unfold runSpins
    rw [spinEndpoint_of_played u k s hplayed hprizes]
    dsimp only
    rw [ih]
    rfl

/-- C2: for every batch of N ≥ 2 concurrent Spin calls for the same
identity, starting with no spin row for that identity and at least one
active prize, exactly one call succeeds and returns a prize and every other
call fails with AlreadyPlayed. -/
theorem concurrent_spins_exactly_one_success (u : TgUser) (ks : List Nat) (s : DBState)
    (hn : 2 ≤ ks.length)
    (hfresh : s.spins.any (·.tg_user_id = u.id) = false)
    (hprizes : activePrizes s ≠ []) :
    (runSpins u ks s).1.countP isOkResult = 1 ∧
    (runSpins u ks s).1.countP (· = SpinResult.alreadyPlayed) = ks.length - 1 := by
  match ks with
  | [] => simp at hn
  | k :: rest =>
    obtain ⟨out, heq⟩ := spinEndpoint_of_fresh u k s hfresh hprizes
    have hstep :
        runSpins u (k :: rest) s =
          ((spinEndpoint u k s).1 :: (runSpins u rest (spinEndpoint u k s).2).1,
           (runSpins u rest (spinEndpoint u k s).2).2) := rfl
    have hplayed' : (spinEndpoint u k s).2.spins.any (·.tg_user_id = u.id) = true := by
      rw [heq]
      simp
    have hprizes' : activePrizes (spinEndpoint u k s).2 ≠ [] := by
      unfold activePrizes
      rw [spinEndpoint_prizes]
      exact hprizes
    rw [hstep, runSpins_of_played u rest _ hplayed' hprizes', heq]
    have hmap0 : (List.map (fun _ => SpinResult.alreadyPlayed) rest).countP isOkResult = 0 := by
      rw [List.countP_eq_zero]
      intro x hx
      obtain ⟨_, _, hxeq⟩ := List.mem_map.mp hx
      rw [← hxeq]
      simp [isOkResult]
    have hmapn : ∀ l : List Nat, (List.map (fun _ => SpinResult.alreadyPlayed) l).countP
        (· = SpinResult.alreadyPlayed) = l.length := by
      intro l
      induction l with
      | nil => rfl
      | cons a t ih =>
        rw [List.map_cons, List.countP_cons_of_pos _ _ (by simp), ih, List.length_cons]
    constructor
    · show (SpinResult.ok out :: List.map (fun _ => SpinResult.alreadyPlayed) rest).countP
          isOkResult = 1
      rw [List.countP_cons_of_pos _ _ (by simp [isOkResult]), hmap0]
    · show (SpinResult.ok out :: List.map (fun _ => SpinResult.alreadyPlayed) rest).countP
          (· = SpinResult.alreadyPlayed) = (k :: rest).length - 1
      rw [List.countP_cons_of_neg _ _ (by simp), hmapn rest]
      simp

theorem concurrent_spins_exactly_one_success_witness :
    2 ≤ ([0, 1, 2] : List Nat).length ∧
    (([] : List SpinRow).any (·.tg_user_id = (7 : Int)) = false) ∧
    activePrizes ⟨[⟨1, "A", "X", "#111111", 1, true⟩], [], 2, 1⟩ ≠ [] ∧
    ((runSpins ⟨7, none, none, none⟩ [0, 1, 2]
        ⟨[⟨1, "A", "X", "#111111", 1, true⟩], [], 2, 1⟩).1.countP isOkResult = 1 ∧
     (runSpins ⟨7, none, none, none⟩ [0, 1, 2]
        ⟨[⟨1, "A", "X", "#111111", 1, true⟩], [], 2, 1⟩).1.countP
          (· = SpinResult.alreadyPlayed) = ([0, 1, 2] : List Nat).length - 1) :=
  ⟨by decide, by decide, by decide,
   concurrent_spins_exactly_one_success ⟨7, none, none, none⟩ [0, 1, 2]
     ⟨[⟨1, "A", "X", "#111111", 1, true⟩], [], 2, 1⟩ (by decide) (by decide) (by decide)⟩

/-! ## Persistence of a recorded spin under later operations -/

/-- The operations the C5 claim allows between Spin and CheckStatus:
everything except an administrative reset and result deletion. -/
def noResetOrDelete : Op → Prop
  | .resetOp => False
  | .deleteResultOp _ => False
  | _ => True

instance : DecidablePred noResetOrDelete := by
  intro op
  cases op <;> unfold noResetOrDelete <;> infer_instance

/-- A stored spin row stays the first (hence the returned) row for its
identity across every operation other than reset and deletion. -/
theorem find?_spin_preserved (op : Op) (s : DBState) (uid : Int) (r : SpinRow)
    (hop : noResetOrDelete op)
    (h : s.spins.find? (·.tg_user_id = uid) = some r) :
    (applyOp op s).spins.find? (·.tg_user_id = uid) = some r := by
  cases op with
  | spinOp u k =>
    show (spinEndpoint u k s).2.spins.find? (·.tg_user_id = uid) = some r
    by_cases hempty : activePrizes s = []
    · rw [spinEndpoint_of_empty u k s hempty]
      exact h
    · by_cases hplayed : s.spins.any (·.tg_user_id = u.id)
      · rw [spinEndpoint_of_played u k s hplayed hempty]
        exact h
      · rw [Bool.not_eq_true] at hplayed
        obtain ⟨out, heq⟩ := spinEndpoint_of_fresh u k s hplayed hempty
        rw [heq]
        exact find?_append_of_some _ _ h
  | checkOp _ => exact h
  | resetOp => exact absurd hop (by simp [noResetOrDelete])
  | deleteResultOp _ => exact absurd hop (by simp [noResetOrDelete])
  | createPrizeOp d =>
    show (createPrizeEndpoint d s).2.spins.find? (·.tg_user_id = uid) = some r
    unfold createPrizeEndpoint
    split <;> exact h
  | updatePrizeOp i u =>
    show (updatePrizeEndpoint i u s).2.spins.find? (·.tg_user_id = uid) = some r
    unfold updatePrizeEndpoint
    split <;> exact h

theorem find?_spin_preserved_ops (ops : List Op) (s : DBState) (uid : Int) (r : SpinRow)
    (hops : ∀ op ∈ ops, noResetOrDelete op)
    (h : s.spins.find? (·.tg_user_id = uid) = some r) :
    (applyOps ops s).spins.find? (·.tg_user_id = uid) = some r := by
  induction ops generalizing s with
  | nil => exact h
  | cons op rest ih =>
    have hstep : applyOps (op :: rest) s = applyOps rest (applyOp op s) := rfl
    rw [hstep]
    exact ih (applyOp op s) (fun o ho => hops o (List.mem_cons_of_mem op ho))
      (find?_spin_preserved op s uid r (hops op (List.mem_cons_self op rest)) h)

/-- C5: after a successful Spin returning a prize, every subsequent
CheckStatus — with no intervening reset or deletion, but under arbitrary
other operations including edits to the Prize's live fields — reports the
identity as having played, with the identical prize id and prize text that
Spin returned. -/
theorem check_returns_spin_result (s : DBState) (u : TgUser) (k : Nat)
    (out : SpinOut) (s' : DBState) (ops : List Op)
    (hspin : spinEndpoint u k s = (.ok out, s'))
    (hops : ∀ op ∈ ops, noResetOrDelete op) :
    ∃ o : SpinOut,
      checkEndpoint u.id (applyOps ops s') = ⟨true, some o⟩ ∧
      o.prize_id = out.prize_id ∧ o.prize_text = out.prize_text := by
  obtain ⟨hfresh, hs'⟩ := spinEndpoint_ok_inv u k s out s' hspin
  have hnone : s.spins.find? (·.tg_user_id = u.id) = none := by
    rw [List.find?_eq_none]
    simpa using hfresh
  have hrow : s'.spins.find? (·.tg_user_id = u.id) =
      some ⟨s.nextSpinId, u.id, u.username, u.first_name, u.last_name,
            out.prize_id, out.prize_text⟩ := by
    rw [hs']
    dsimp only
    rw [find?_append_of_none _ _ hnone]
    simp
  have hfinal := find?_spin_preserved_ops ops s' u.id _ hops hrow
  unfold checkEndpoint
  rw [hfinal]
  dsimp only
  split
  · exact ⟨_, rfl, rfl, rfl⟩
  · exact ⟨_, rfl, rfl, rfl⟩

theorem check_returns_spin_result_witness :
    (spinEndpoint ⟨7, none, none, none⟩ 0 ⟨[⟨1, "A", "X", "#111111", 1, true⟩], [], 2, 1⟩ =
      (.ok ⟨1, "A", "X", "#111111"⟩,
       ⟨[⟨1, "A", "X", "#111111", 1, true⟩], [⟨1, 7, none, none, none, 1, "A"⟩], 2, 2⟩)) ∧
    (∀ op ∈ ([.updatePrizeOp 1 ⟨some "B", some "Y", none, none, none⟩,
              .spinOp ⟨9, none, none, none⟩ 0, .checkOp 7] : List Op), noResetOrDelete op) ∧
    ∃ o : SpinOut,
      checkEndpoint (7 : Int)
        (applyOps [.updatePrizeOp 1 ⟨some "B", some "Y", none, none, none⟩,
                   .spinOp ⟨9, none, none, none⟩ 0, .checkOp 7]
          ⟨[⟨1, "A", "X", "#111111", 1, true⟩], [⟨1, 7, none, none, none, 1, "A"⟩], 2, 2⟩) =
        ⟨true, some o⟩ ∧
      o.prize_id = (1 : Nat) ∧ o.prize_text = "A" :=
  ⟨by decide, by decide,
   check_returns_spin_result ⟨[⟨1, "A", "X", "#111111", 1, true⟩], [], 2, 1⟩
     ⟨7, none, none, none⟩ 0 ⟨1, "A", "X", "#111111"⟩
     ⟨[⟨1, "A", "X", "#111111", 1, true⟩], [⟨1, 7, none, none, none, 1, "A"⟩], 2, 2⟩
     [.updatePrizeOp 1 ⟨some "B", some "Y", none, none, none⟩,
      .spinOp ⟨9, none, none, none⟩ 0, .checkOp 7]
     (by decide) (by decide)⟩

/-! ## CheckStatus and the prize snapshot (C4) -/

def c4User : TgUser := ⟨7, none, none, none⟩

def c4State0 : DBState := ⟨[⟨1, "A", "X", "#111111", 1, true⟩], [], 2, 1⟩

/-- State after identity 7 spun and won prize 1 (icon `"X"`). -/
def c4State1 : DBState := (spinEndpoint c4User 0 c4State0).2

/-- State after an administrator edited prize 1's icon to `"Y"`. -/
def c4State2 : DBState := (updatePrizeEndpoint 1 ⟨none, some "Y", none, none, none⟩ c4State1).2

/-- C4 counterexample: editing the live Prize record between the spin and
the check leaves the spin row untouched, yet changes the `prize_icon` field
CheckStatus returns — so CheckStatus does recompute returned fields
(icon, color) from the live Prize record, refuting the claim that no
returned field is ever recomputed. -/
theorem check_recomputes_live_fields_counterexample :
    c4State2.spins = c4State1.spins ∧
    (checkEndpoint 7 c4State1).prize = some ⟨1, "A", "X", "#111111"⟩ ∧
    (checkEndpoint 7 c4State2).prize = some ⟨1, "A", "Y", "#111111"⟩ := by
  decide

/-- C4 as amended: for an identity with a spin row, CheckStatus reports the
row's snapshotted `prize_id` and `prize_text` unrecomputed, while
`prize_icon`/`prize_color` are read from the live Prize record, with the
literal fallbacks when that record no longer exists. -/
theorem check_returns_snapshot_id_text (s : DBState) (uid : Int) (r : SpinRow)
    (h : s.spins.find? (·.tg_user_id = uid) = some r) :
    (checkEndpoint uid s).has_played = true ∧
    ∃ o : SpinOut, (checkEndpoint uid s).prize = some o ∧
      o.prize_id = r.prize_id ∧ o.prize_text = r.prize_text ∧
      (∀ p, s.prizes.find? (·.id = r.prize_id) = some p →
        o.prize_icon = p.icon ∧ o.prize_color = p.color) ∧
      (s.prizes.find? (·.id = r.prize_id) = none →
        o.prize_icon = "🎁" ∧ o.prize_color = "#ffd700") := by
  unfold checkEndpoint
  rw [h]
  dsimp only
  split
  · next p hp =>
    refine ⟨rfl, _, rfl, rfl, rfl, ?_, ?_⟩
    · intro q hq
      rw [hp] at hq
      cases hq
      exact ⟨rfl, rfl⟩
    · intro hn
      rw [hp] at hn
      cases hn
  · next hn =>
    refine ⟨rfl, _, rfl, rfl, rfl, ?_, ?_⟩
    · intro q hq
      rw [hn] at hq
      cases hq
    · intro _
      exact ⟨rfl, rfl⟩

theorem check_returns_snapshot_id_text_witness :
    (([⟨1, 7, none, none, none, 1, "A"⟩] : List SpinRow).find?
        (·.tg_user_id = (7 : Int)) = some ⟨1, 7, none, none, none, 1, "A"⟩) ∧
    ((checkEndpoint (7 : Int)
        ⟨[⟨1, "A", "Z", "#222222", 1, true⟩], [⟨1, 7, none, none, none, 1, "A"⟩], 2, 2⟩).has_played
        = true ∧
     ∃ o : SpinOut,
       (checkEndpoint (7 : Int)
          ⟨[⟨1, "A", "Z", "#222222", 1, true⟩], [⟨1, 7, none, none, none, 1, "A"⟩], 2, 2⟩).prize
          = some o ∧
       o.prize_id = (⟨1, 7, none, none, none, 1, "A"⟩ : SpinRow).prize_id ∧
       o.prize_text = (⟨1, 7, none, none, none, 1, "A"⟩ : SpinRow).prize_text ∧
       (∀ p, (([⟨1, "A", "Z", "#222222", 1, true⟩] : List Prize).find?
            (·.id = (⟨1, 7, none, none, none, 1, "A"⟩ : SpinRow).prize_id)) = some p →
          o.prize_icon = p.icon ∧ o.prize_color = p.color) ∧
       ((([⟨1, "A", "Z", "#222222", 1, true⟩] : List Prize).find?
            (·.id = (⟨1, 7, none, none, none, 1, "A"⟩ : SpinRow).prize_id)) = none →
          o.prize_icon = "🎁" ∧ o.prize_color = "#ffd700")) :=
  ⟨by decide,
   check_returns_snapshot_id_text
     ⟨[⟨1, "A", "Z", "#222222", 1, true⟩], [⟨1, 7, none, none, none, 1, "A"⟩], 2, 2⟩
     7 ⟨1, 7, none, none, none, 1, "A"⟩ (by decide)⟩

/-! ## Signing-key derivation (C3) -/

theorem sha256_length (msg : List Nat) : (sha256 msg).length = 32 := by
  unfold sha256 digestBytes wordBytes
  simp

theorem hmacSHA256_length (key msg : List Nat) : (hmacSHA256 key msg).length = 32 := by
  unfold hmacSHA256
  exact sha256_length _

/-- C3 counterexample: already for the one-byte token `"S"`, the signing key
the source derives (token as HMAC *message*, `"WebAppData"` as HMAC *key*,
Python argument order `hmac.new(key, msg)`) differs from the claim's
derivation (token as HMAC key over the message `"WebAppData"`). -/
theorem signing_key_spec_order_counterexample :
    secretKey "S" ≠ specSigningKey "S" := by
  decide

/-- C3 as amended: the signing key equals HMAC-SHA256 computed over the
shared secret token as the message, using the literal byte string
`"WebAppData"` as the HMAC key, yielding a 32-byte digest, and that digest
is the HMAC key used to sign the canonical check-string. -/
theorem signing_key_keyed_by_webappdata (botToken checkStr : String) :
    secretKey botToken = hmacSHA256 (strBytes "WebAppData") (strBytes botToken) ∧
    (secretKey botToken).length = 32 ∧
    calculatedHash botToken checkStr =
      hexEncode (hmacSHA256 (secretKey botToken) (strBytes checkStr)) :=
  ⟨rfl, hmacSHA256_length _ _, rfl⟩

/-! ## Freshness window (C7) -/

theorem parseUserField_ne_expired (parseUser : String → Option TgUser)
    (rest : List (String × String)) :
    parseUserField parseUser rest ≠ .error .expiredPayload := by
  unfold parseUserField
  split
  · simp
  · split
    · simp
    · split <;> simp

theorem freshnessCheck_eval (now : Int) (rest : List (String × String))
    (a : String) (t : Int)
    (ha : lookupFirst "auth_date" rest = some a) (hane : a ≠ "")
    (ht : pyInt a = some t) :
    freshnessCheck now rest =
      if 3600 < (now - t).natAbs then .error .expiredPayload else .ok () := by
  unfold freshnessCheck
  rw [ha]
  dsimp only
  rw [if_neg hane, ht]

/-- C7: for a payload carrying a (truthy) hash and a numeric `auth_date`,
validation fails with ExpiredPayload exactly when the absolute difference
between the current time and `auth_date` exceeds 3600 seconds — the
boundary itself (3600) passes, 3601 fails. -/
theorem expired_iff_stale (parseUser : String → Option TgUser) (now : Int)
    (botToken : String) (d : List (String × String)) (hsh a : String) (t : Int)
    (hh : lookupFirst "hash" (toDict d) = some hsh)
    (hne : hsh ≠ "")
    (ha : lookupFirst "auth_date" (toDict d) = some a)
    (hane : a ≠ "")
    (ht : pyInt a = some t) :
    (validateInitData parseUser now botToken d = .error .expiredPayload ↔
      3600 < (now - t).natAbs) := by
  have ha' : lookupFirst "auth_date" (removeKey "hash" (toDict d)) = some a := by
    unfold lookupFirst removeKey
    unfold lookupFirst at ha
    rw [find?_filter_of_imp]
    · exact ha
    · intro kv hkv
      simp only [decide_eq_true_eq] at hkv
      simp only [hkv]
      decide
  by_cases hexp : 3600 < (now - t).natAbs
  · unfold validateInitData
    rw [hh]
    dsimp only
    rw [if_neg hne, freshnessCheck_eval now _ a t ha' hane ht, if_pos hexp]
    exact iff_of_true rfl hexp
  · unfold validateInitData
    rw [hh]
    dsimp only
    rw [if_neg hne, freshnessCheck_eval now _ a t ha' hane ht, if_neg hexp]
    refine iff_of_false ?_ hexp
    dsimp only
    split
    · exact parseUserField_ne_expired _ _
    · simp

theorem expired_iff_stale_witness :
    (lookupFirst "hash" (toDict [("auth_date", "6399"), ("hash", "ab")]) = some "ab") ∧
    ("ab" ≠ "") ∧
    (lookupFirst "auth_date" (toDict [("auth_date", "6399"), ("hash", "ab")]) = some "6399") ∧
    ("6399" ≠ "") ∧
    (pyInt "6399" = some 6399) ∧
    (validateInitData (fun _ => none) 10000 "T" [("auth_date", "6399"), ("hash", "ab")] =
        .error .expiredPayload ↔ 3600 < ((10000 : Int) - 6399).natAbs) :=
  ⟨by decide, by decide, by decide, by decide, by decide,
   expired_iff_stale (fun _ => none) 10000 "T" [("auth_date", "6399"), ("hash", "ab")]
     "ab" "6399" 6399 (by decide) (by decide) (by decide) (by decide) (by decide)⟩

/-! ## Empty hash value (C10) -/

/-- C10: when the `hash` key is present but its decoded value is the empty
string, validation fails with MissingSignature — the same error as when
`hash` is absent — because `if not received_hash:` treats the empty string
exactly like `None`; the empty signature never reaches the comparison. -/
theorem empty_hash_missing_signature (parseUser : String → Option TgUser)
    (now : Int) (botToken : String) (d : List (String × String))
    (h : lookupFirst "hash" (toDict d) = some "") :
    validateInitData parseUser now botToken d = .error .missingSignature := by
  unfold validateInitData
  rw [h]
  dsimp only
  rw [if_pos rfl]

theorem empty_hash_missing_signature_witness :
    (lookupFirst "hash" (toDict [("user", "u"), ("hash", "")]) = some "") ∧
    validateInitData (fun _ => none) 0 "T" [("user", "u"), ("hash", "")] =
      .error .missingSignature :=
  ⟨by decide,
   empty_hash_missing_signature (fun _ => none) 0 "T" [("user", "u"), ("hash", "")]
     (by decide)⟩

/-- The absent-hash case for comparison: the error is the same
`missingSignature` that C10's empty-valued case produces. -/
theorem absent_hash_missing_signature (parseUser : String → Option TgUser)
    (now : Int) (botToken : String) (d : List (String × String))
    (h : lookupFirst "hash" (toDict d) = none) :
    validateInitData parseUser now botToken d = .error .missingSignature := by
  unfold validateInitData
  rw [h]

/-! End-to-end sanity checks of the validator pipeline.  The accepted hash
below is the reference value produced by Python's
`hmac.new(hmac.new(b"WebAppData", b"S", sha256).digest(), b"auth_date=1000",
sha256).hexdigest()`, confirming the embedding reproduces the source's
cryptography bit for bit. -/

theorem validator_accepts_correct_signature :
    validateInitData (fun _ => none) 1000 "S"
        [("auth_date", "1000"),
         ("hash", "d5554c18232f298de0cd339a7073cb4a00637bed0ce7756e7542d7ccd7f17df6")] =
      .ok ⟨[("auth_date", "1000")], none⟩ := by
  decide

theorem validator_boundary_3601_expired :
    validateInitData (fun _ => none) 3601 "T" [("auth_date", "0"), ("hash", "ab")] =
      .error .expiredPayload := by
  decide

theorem validator_boundary_3600_passes_freshness :
    validateInitData (fun _ => none) 3600 "T" [("auth_date", "0"), ("hash", "ab")] =
      .error .invalidSignature := by
  decide

end FortuneWheel
